import Mathlib

/-!
# Verification of the paint-board element/history engine

Shallow embedding of `src/src/utils/paintBoard.ts` (class `PaintBoard`) and of
the engine modules it depends on (`History`, `Layer`, the geometry helpers and
the per-variant transform routines).  The `PaintBoard` methods are translated
directly from the TypeScript source; the dependency modules are not part of the
source tree, so they are modelled from the specification (each such definition
carries a doc comment starting with `Modelled from the spec:`).

Coordinates are rationals (the source uses IEEE doubles for geometry; ℚ keeps
the arithmetic exact).  Distance thresholds are compared through squared
distances, which is equivalent for non-negative quantities and keeps every
definition inside ℚ.
-/

/-- A 2D point / mouse position `{x, y}`. -/
structure Pos where
  x : ℚ
  y : ℚ
deriving DecidableEq, Repr

/-- An axis-aligned rectangle `{x, y, width, height}` (`ElementRect`). -/
structure Rect where
  x : ℚ
  y : ℚ
  width : ℚ
  height : ℚ
deriving DecidableEq, Repr

/-- The `CANVAS_ELE_TYPE` discriminant tags of the element variants. -/
inductive EleType where
  | FREE_LINE
  | CLEAN_LINE
  | TEXT
deriving DecidableEq, Repr

/-- The `RESIZE_TYPE` handle classification. -/
inductive ResizeType where
  | NULL
  | BODY
  | TOP_LEFT
  | TOP_RIGHT
  | BOTTOM_LEFT
  | BOTTOM_RIGHT
deriving DecidableEq, Repr

/-- An element instance (`FreeLine` / `CleanLine` / `TextElement`), flattened
into one record dispatched on `type` exactly as the source dispatches on the
`type` tag.  Fields not used by a variant are junk for that variant:
`positions`, `color`, `lineWidth` belong to the stroke variants, `value` to the
text variant. -/
structure Element where
  type : EleType
  layer : ℕ
  color : String
  lineWidth : ℚ
  positions : List Pos
  value : String
  rect : Rect
deriving DecidableEq, Repr

/-- One layer record `{id, show}` of the Layer Registry (the label plays no
role in the engine).  `show` is a Lean keyword, hence the field name `show'`. -/
structure LayerItem where
  id : ℕ
  show' : Bool
deriving DecidableEq, Repr

/-- Modelled from the spec: the Layer Registry — the ordered `stack` of layers
plus the designated `current` layer id that receives newly created elements. -/
structure LayerRegistry where
  stack : List LayerItem
  current : ℕ
deriving DecidableEq, Repr

/-- Squared Euclidean distance between two points.  Models the source's
`getDistance` (`common.ts`, not in the source tree) through its square: the
source compares `getDistance(p, q) < 10`, which for the non-negative Euclidean
distance is equivalent to `distSq p q < 100`. -/
def distSq (p q : Pos) : ℚ :=
  (p.x - q.x) * (p.x - q.x) + (p.y - q.y) * (p.y - q.y)

/-- Modelled from the spec: `distancePointToSegment(p, a, b)`, the standard
perpendicular-or-endpoint distance from a point to a segment (the source's
`getPositionToLineDistance` in `common.ts`, not in the source tree), given
through its square: when the projection of `p` onto the line `a b` falls inside
the segment the squared perpendicular distance is `cross² / len²`, otherwise
the squared distance to the nearer endpoint. -/
def distToSegSq (p a b : Pos) : ℚ :=
  let dx := b.x - a.x
  let dy := b.y - a.y
  let len2 := dx * dx + dy * dy
  if len2 = 0 then distSq p a
  else
    let dot := (p.x - a.x) * dx + (p.y - a.y) * dy
    if dot ≤ 0 then distSq p a
    else if len2 ≤ dot then distSq p b
    else
      let cross := (p.x - a.x) * dy - (p.y - a.y) * dx
      cross * cross / len2

/-- Modelled from the spec: `hitTestRect(point, rect)`, the standard rectangle
containment test (the source's `isInsideRect` in `common.ts`, not in the source
tree). -/
def isInsideRect (p : Pos) (r : Rect) : Bool :=
  r.x ≤ p.x && p.x ≤ r.x + r.width && r.y ≤ p.y && p.y ≤ r.y + r.height

/-- The free-stroke hit-test loop of `PaintBoard.moveSelectElement`
(paintBoard.ts:381-394): for every consecutive pair of stroke points it
requires the pointer to be within distance 10 of the segment and within
distance 10 of at least one of the two endpoints (squared comparison against
`100`).  The loop is a fold over consecutive pairs; the source's loop keeps
running after a hit but only re-sets the same element index, so a Bool "some
segment matched" is the faithful observable. -/
def freeLineHitLoop (movePos : Pos) : List Pos → Bool
  | [] => false
  | [_] => false
  | p0 :: p1 :: rest =>
      ((distSq movePos p0 < 100 || distSq movePos p1 < 100) &&
        distToSegSq movePos p0 p1 < 100)
      || freeLineHitLoop movePos (p1 :: rest)

/-!
## History Engine

`history.ts` is not in the source tree; the `History` class is modelled from
the spec (§3 "History", §4.1 "History Engine"): a list of element-stack
snapshots (the timeline) together with the integer `step` cursor.  The live
stack is the snapshot at the cursor.
-/

/-- Modelled from the spec: the History Engine state — the undo/redo timeline
of stack snapshots plus the `step` cursor into it.  The constructor seeds the
timeline with the persisted stack, so a freshly built history has one snapshot
and cursor `0`. -/
structure History (α : Type) where
  snapshots : List (List α)
  step : ℕ
deriving DecidableEq, Repr

namespace History

/-- Modelled from the spec: `currentStack()` — the read-only view of the live
element sequence, i.e. the snapshot at the cursor (empty when the cursor is
out of range). -/
def getCurrentStack (h : History α) : List α :=
  h.snapshots.getD h.step []

/-- Modelled from the spec: `add(element)` appends the element to the current
stack, advances the live view and invalidates any pending redo entries beyond
the cursor (the timeline is truncated after the cursor before the new snapshot
is pushed). -/
def add (h : History α) (e : α) : History α :=
  { snapshots := h.snapshots.take (h.step + 1) ++ [h.getCurrentStack ++ [e]]
    step := h.step + 1 }

/-- Modelled from the spec: `undo()` moves the cursor back one step; a no-op
(not an error) at the rear boundary. -/
def undo (h : History α) : History α :=
  if 0 < h.step then { h with step := h.step - 1 } else h

/-- Modelled from the spec: `redo()` moves the cursor forward one step; a
no-op (not an error) at the front boundary. -/
def redo (h : History α) : History α :=
  if h.step + 1 < h.snapshots.length then { h with step := h.step + 1 } else h

/-- Modelled from the spec: `commitSnapshot(before, after)` — the source calls
it `pushStack(stack, prevStack)` with the post-edit stack first.  When the two
stacks are structurally equal no entry is pushed; otherwise the redo tail is
invalidated and exactly one timeline entry holding the post-edit stack is
pushed. -/
def pushStack [DecidableEq α] (h : History α) (stack prevStack : List α) :
    History α :=
  if prevStack = stack then h
  else
    { snapshots := h.snapshots.take (h.step + 1) ++ [stack]
      step := h.step + 1 }

/-- Modelled from the spec: `deleteAt(index)` (the source calls it
`deleteByIndex`) removes one element of the current stack as a single undoable
action. -/
def deleteByIndex (h : History α) (i : ℕ) : History α :=
  { snapshots := h.snapshots.take (h.step + 1) ++ [h.getCurrentStack.eraseIdx i]
    step := h.step + 1 }

/-- Modelled from the spec: `clear()` (the source calls it `clean`) empties
the current stack as a single undoable action. -/
def clean (h : History α) : History α :=
  { snapshots := h.snapshots.take (h.step + 1) ++ [([] : List α)]
    step := h.step + 1 }

/-- In-place mutation of the live stack: the source mutates the element
objects held by the current snapshot (drag/resize edits an element aliased
from `getCurrentStack()`).  In the state-passing embedding this is an explicit
rewrite of the snapshot at the cursor. -/
def setCurrentStack (h : History α) (stack : List α) : History α :=
  { h with snapshots := h.snapshots.set h.step stack }

/-- Modelled from the spec: `sortByLayerOrder` (the source calls it
`History.sort(compare)`) reorders the current stack with the supplied
comparator; it only affects iteration/paint order, not the timeline.  A
JavaScript `Array.prototype.sort` with comparator `c` is a stable sort for the
relation `c a b ≤ 0`; `List.insertionSort` is a stable sort of that
relation. -/
def sort (h : History α) (r : α → α → Prop) [DecidableRel r] : History α :=
  h.setCurrentStack (h.getCurrentStack.insertionSort r)

/-- Modelled from the spec: the `History` constructor seeds the timeline with
the persisted element stack, so a fresh history has one snapshot and the
cursor at `0`. -/
def fromStack (stack : List α) : History α := ⟨[stack], 0⟩

/-- Well-formedness: the cursor points at an existing snapshot (established by
the constructor, preserved by every operation). -/
def WF (h : History α) : Prop := h.step < h.snapshots.length

instance (h : History α) : Decidable h.WF := by
  unfold WF; infer_instance

end History

/-!
## Transform Engine

`freeLine.ts` / `text.ts` are not in the source tree; `moveFreeLine`,
`resizeFreeLine` and `resizeTextElement` are modelled from the spec (§4.4
"Transform Engine").
-/

/-- Modelled from the spec: the `Body` handle translates a stroke — every
point shifts by the pointer delta, and so does the bounding rect. -/
def moveFreeLine (e : Element) (dx dy : ℚ) : Element :=
  { e with
    positions := e.positions.map (fun p => ⟨p.x + dx, p.y + dy⟩)
    rect := { e.rect with x := e.rect.x + dx, y := e.rect.y + dy } }

/-- The anchor corner of a resize: the corner opposite the dragged handle,
which must remain stationary (spec §4.4). -/
def resizeAnchor (rect : Rect) : ResizeType → Pos
  | ResizeType.BOTTOM_RIGHT => ⟨rect.x, rect.y⟩
  | ResizeType.BOTTOM_LEFT => ⟨rect.x + rect.width, rect.y⟩
  | ResizeType.TOP_LEFT => ⟨rect.x + rect.width, rect.y + rect.height⟩
  | ResizeType.TOP_RIGHT => ⟨rect.x, rect.y + rect.height⟩
  | _ => ⟨rect.x, rect.y⟩

/-- Modelled from the spec: corner-handle resize of a stroke — every point is
rescaled relative to the anchor corner by the horizontal/vertical factors, and
the bounding rect is rescaled the same way.  Degenerate case: a scale factor
is never applied when the original dimension is zero (guard against division
by zero) — that axis is skipped for the frame. -/
def resizeFreeLine (e : Element) (scaleX scaleY : ℚ) (rect : Rect)
    (resizeType : ResizeType) : Element :=
  let anchor := resizeAnchor rect resizeType
  let sx : ℚ → ℚ := fun x =>
    if rect.width = 0 then x else anchor.x + (x - anchor.x) * scaleX
  let sy : ℚ → ℚ := fun y =>
    if rect.height = 0 then y else anchor.y + (y - anchor.y) * scaleY
  { e with
    positions := e.positions.map (fun p => ⟨sx p.x, sy p.y⟩)
    rect :=
      { x := sx e.rect.x
        y := sy e.rect.y
        width := if rect.width = 0 then e.rect.width else e.rect.width * scaleX
        height :=
          if rect.height = 0 then e.rect.height else e.rect.height * scaleY } }

/-- Modelled from the spec: TextBox resize — `rect.width/height` are set to
the supplied values and `rect.x/y` shift only for anchors that move (TopLeft
and BottomLeft shift `x`; TopLeft and TopRight shift `y`). -/
def resizeTextElement (e : Element) (w h : ℚ) (resizeType : ResizeType) :
    Element :=
  let shiftX := resizeType = ResizeType.TOP_LEFT ∨
    resizeType = ResizeType.BOTTOM_LEFT
  let shiftY := resizeType = ResizeType.TOP_LEFT ∨
    resizeType = ResizeType.TOP_RIGHT
  { e with
    rect :=
      { x := if shiftX then e.rect.x + (e.rect.width - w) else e.rect.x
        y := if shiftY then e.rect.y + (e.rect.height - h) else e.rect.y
        width := w
        height := h } }

/-!
## Element constructors

The `FreeLine`, `CleanLine` and `TextElement` classes live in files outside
the source tree; their constructors, as called by `PaintBoard`, are modelled
from the spec's Element data model (§3).
-/

/-- Modelled from the spec: `new FreeLine(color, width, layer)` — a fresh
free-form stroke on the given layer with no points yet. -/
def FreeLine.create (color : String) (width : ℚ) (layer : ℕ) : Element :=
  { type := EleType.FREE_LINE, layer := layer, color := color
    lineWidth := width, positions := [], value := "", rect := ⟨0, 0, 0, 0⟩ }

/-- Modelled from the spec: `new CleanLine(width, layer)` — a fresh eraser
stroke on the given layer with no points yet. -/
def CleanLine.create (width : ℚ) (layer : ℕ) : Element :=
  { type := EleType.CLEAN_LINE, layer := layer, color := ""
    lineWidth := width, positions := [], value := "", rect := ⟨0, 0, 0, 0⟩ }

/-- Modelled from the spec: `new TextElement(layer, value, rect)` — a TextBox
on the given layer whose `rect` is the authoritative geometry. -/
def TextElement.create (layer : ℕ) (value : String) (rect : Rect) : Element :=
  { type := EleType.TEXT, layer := layer, color := ""
    lineWidth := 0, positions := [], value := value, rect := rect }

/-- Modelled from the spec: the `CANVAS_ELE_TYPE.FREE_LINE` tag constant from
`constants.ts` (not in the source tree); only its distinctness matters. -/
def CANVAS_ELE_TYPE.FREE_LINE : String := "freeLine"

/-- Modelled from the spec: the `CANVAS_ELE_TYPE.CLEAN_LINE` tag constant from
`constants.ts` (not in the source tree); only its distinctness matters. -/
def CANVAS_ELE_TYPE.CLEAN_LINE : String := "cleanLine"

/-!
## Board Controller

The `PaintBoard` class of `src/src/utils/paintBoard.ts`, translated method by
method.  Rendering (`render`), the persistence write (`cache`) and cursor
feedback change no modelled state — they only talk to the external drawing
surface / store — so they vanish from the embedding.
-/

/-- The `{top, left}` geometry of the canvas (`canvasRect`). -/
structure CanvasRect where
  top : ℚ
  left : ℚ
deriving DecidableEq, Repr

/-- The modelled mutable state of a `PaintBoard` instance (paintBoard.ts:30-54
and 344-352). -/
structure Board where
  history : History Element
  layer : LayerRegistry
  canvasRect : CanvasRect
  originPosition : Pos
  originTranslate : Pos
  currentLineColor : String
  currentLineWidth : ℚ
  cleanWidth : ℚ
  currentMoveEle : Option Element
  mouseHoverElementIndex : ℤ
  selectElementIndex : ℤ
  resizeMousePos : Pos
  resizeType : ResizeType
  tempCache : Option (List Element)
  isCurrentChange : Bool
deriving DecidableEq, Repr

/-- The ids of the layers that are currently shown, in stack order
(paintBoard.ts:366-370, the `reduce` that feeds the `Set`). -/
def showLayerIds (reg : LayerRegistry) : List ℕ :=
  reg.stack.foldl (fun acc cur => if cur.show' then acc ++ [cur.id] else acc) []

/-- `this.layer.stack.findIndex(({ id }) => id === l)` (paintBoard.ts:139-140):
the position of a layer in the registry stack, `-1` when absent (JavaScript
`findIndex` semantics). -/
def findLayerIndex (reg : LayerRegistry) (l : ℕ) : ℤ :=
  match reg.stack.findIdx? (fun item => item.id = l) with
  | some i => (i : ℤ)
  | none => -1

namespace Board

/-- `transformPosition` (paintBoard.ts:337-342): device coordinates to board
coordinates, subtracting the canvas origin and the pan offset. -/
def transformPosition (b : Board) (position : Pos) : Pos :=
  ⟨position.x - b.canvasRect.left - b.originTranslate.x,
    position.y - b.canvasRect.top - b.originTranslate.y⟩

/-- `initOriginPosition` (paintBoard.ts:95-101), restricted to the modelled
state: resets `originPosition` (the context translate call is drawing-surface
glue). -/
def initOriginPosition (b : Board) : Board :=
  { b with originPosition := ⟨0, 0⟩ }

/-- `cancelSelectElement` (paintBoard.ts:575-577). -/
def cancelSelectElement (b : Board) : Board :=
  { b with selectElementIndex := -1 }

/-- `sortOnLayer` (paintBoard.ts:136-143): sorts the current stack with the
comparator `findIndex(b.layer) - findIndex(a.layer)` over the layer registry
stack. -/
def sortOnLayer (b : Board) : Board :=
  { b with
    history := b.history.sort (fun a c =>
      findLayerIndex b.layer c.layer - findLayerIndex b.layer a.layer ≤ 0) }

/-- `recordCurrent(type)` (paintBoard.ts:109-131): builds the new stroke
element for the tag, always cancels the selection, and when an element was
built adds it to history, marks it the active append target and re-sorts by
layer. -/
def recordCurrent (b : Board) (type : String) : Board :=
  let ele : Option Element :=
    if type = CANVAS_ELE_TYPE.FREE_LINE then
      some (FreeLine.create b.currentLineColor b.currentLineWidth b.layer.current)
    else if type = CANVAS_ELE_TYPE.CLEAN_LINE then
      some (CleanLine.create b.cleanWidth b.layer.current)
    else none
  let b1 := b.cancelSelectElement
  match ele with
  | some e =>
      (({ b1 with history := b1.history.add e, currentMoveEle := some e } :
        Board)).sortOnLayer
  | none => b1

/-- `undo` (paintBoard.ts:294-298). -/
def undo (b : Board) : Board :=
  { b.cancelSelectElement with history := b.history.undo }

/-- `redo` (paintBoard.ts:303-307). -/
def redo (b : Board) : Board :=
  { b.cancelSelectElement with history := b.history.redo }

/-- `clean` (paintBoard.ts:312-316). -/
def clean (b : Board) : Board :=
  { b.cancelSelectElement with history := b.history.clean }

/-- `deleteSelectElement` (paintBoard.ts:562-570). -/
def deleteSelectElement (b : Board) : Board :=
  if b.selectElementIndex ≠ -1 then
    { b with
      history := b.history.deleteByIndex b.selectElementIndex.toNat
      selectElementIndex := -1
      mouseHoverElementIndex := -1
      resizeType := ResizeType.NULL }
  else b

/-- `canvasMouseUp` (paintBoard.ts:582-591): when an interactive edit changed
something and a pre-drag deep copy exists, commits the pair through
`pushStack`; always clears the session state. -/
def canvasMouseUp (b : Board) : Board :=
  let history :=
    match b.tempCache with
    | some tc =>
        if b.isCurrentChange then b.history.pushStack b.history.getCurrentStack tc
        else b.history
    | none => b.history
  (({ b with
      history := history
      isCurrentChange := false
      tempCache := none
      resizeType := ResizeType.NULL
      currentMoveEle := none } : Board)).initOriginPosition

/-- `addTextElement(value, rect)` (paintBoard.ts:598-607): a no-op on an empty
value; otherwise converts the rect position to board coordinates and adds one
TextBox on the current layer. -/
def addTextElement (b : Board) (value : String) (rect : Rect) : Board :=
  if value ≠ "" then
    let position := b.transformPosition ⟨rect.x, rect.y⟩
    let rect' := { rect with x := position.x, y := position.y }
    { b with
      history := b.history.add (TextElement.create b.layer.current value rect') }
  else b

end Board

/-!
## The hover/selection scan and the resize branch of `moveSelectElement`
-/

/-- One callback invocation of the hover scan (paintBoard.ts:372-407): the
accumulator carries the hover index so far and the `done` flag.  An element is
considered only when its `layer` id is truthy and belongs to the shown-layer
set; once `done` is set later (lower) elements are skipped; the `FREE_LINE`
branch runs the segment loop, the `TEXT` branch the rectangle containment
test, and the `default` branch (eraser strokes) does nothing. -/
def scanStep (movePos : Pos) (showIds : List ℕ) (acc : ℤ × Bool)
    (ie : ℕ × Element) : ℤ × Bool :=
  let i := ie.1
  let e := ie.2
  if e.layer ≠ 0 && showIds.contains e.layer then
    if acc.2 then acc
    else
      match e.type with
      | EleType.FREE_LINE =>
          if freeLineHitLoop movePos e.positions then ((i : ℤ), true) else acc
      | EleType.TEXT =>
          if isInsideRect movePos e.rect then ((i : ℤ), true) else acc
      | EleType.CLEAN_LINE => acc
  else acc

/-- The whole hover scan of `moveSelectElement` (paintBoard.ts:365-411):
`history.each(cb, EACH_ORDER_TYPE.LAST)` visits the current stack back to
front with the original indices (modelled from the spec: `forEach` with order
`LAST` is the back-to-front, topmost-first traversal); if no element matched,
the hover index is reset to `-1`. -/
def hoverScan (movePos : Pos) (showIds : List ℕ) (stack : List Element)
    (prev : ℤ) : ℤ :=
  let res := (stack.enum.reverse).foldl (scanStep movePos showIds) (prev, false)
  if res.2 then res.1 else -1

/-- The per-element resize dispatch of `moveSelectElement`
(paintBoard.ts:420-506): for a free stroke the corner scale factors are
`(dimension ± delta) / dimension` computed from a copy of the element's rect;
for a text box the new width/height are `dimension ± delta`; other element
types fall through untouched. -/
def resizeDispatch (e : Element) (dx dy : ℚ) (rt : ResizeType) : Element :=
  if e.type = EleType.FREE_LINE then
    let rect := e.rect
    match rt with
    | ResizeType.BODY => moveFreeLine e dx dy
    | ResizeType.BOTTOM_RIGHT =>
        resizeFreeLine e ((rect.width + dx) / rect.width)
          ((rect.height + dy) / rect.height) rect ResizeType.BOTTOM_RIGHT
    | ResizeType.BOTTOM_LEFT =>
        resizeFreeLine e ((rect.width - dx) / rect.width)
          ((rect.height + dy) / rect.height) rect ResizeType.BOTTOM_LEFT
    | ResizeType.TOP_LEFT =>
        resizeFreeLine e ((rect.width - dx) / rect.width)
          ((rect.height - dy) / rect.height) rect ResizeType.TOP_LEFT
    | ResizeType.TOP_RIGHT =>
        resizeFreeLine e ((rect.width + dx) / rect.width)
          ((rect.height - dy) / rect.height) rect ResizeType.TOP_RIGHT
    | ResizeType.NULL => e
  else if e.type = EleType.TEXT then
    match rt with
    | ResizeType.BODY =>
        { e with rect := { e.rect with x := e.rect.x + dx, y := e.rect.y + dy } }
    | ResizeType.BOTTOM_RIGHT =>
        resizeTextElement e (e.rect.width + dx) (e.rect.height + dy)
          ResizeType.BOTTOM_RIGHT
    | ResizeType.BOTTOM_LEFT =>
        resizeTextElement e (e.rect.width - dx) (e.rect.height + dy)
          ResizeType.BOTTOM_LEFT
    | ResizeType.TOP_LEFT =>
        resizeTextElement e (e.rect.width - dx) (e.rect.height - dy)
          ResizeType.TOP_LEFT
    | ResizeType.TOP_RIGHT =>
        resizeTextElement e (e.rect.width + dx) (e.rect.height - dy)
          ResizeType.TOP_RIGHT
    | ResizeType.NULL => e
  else e

/-- `moveSelectElement(position)` (paintBoard.ts:358-519), restricted to the
modelled state (cursor-kind feedback is external): runs the hover scan when
the current stack is non-empty, then, when an element is selected and a resize
handle is active, marks the session changed, rewrites the selected element
through the resize dispatch (the source mutates it in place inside the live
stack) and records the new resize reference position. -/
def Board.moveSelectElement (b : Board) (position : Pos) : Board :=
  let movePos := b.transformPosition position
  let stack := b.history.getCurrentStack
  let b1 :=
    if stack.length ≠ 0 then
      { b with
        mouseHoverElementIndex :=
          hoverScan movePos (showLayerIds b.layer) stack b.mouseHoverElementIndex }
    else b
  if b.selectElementIndex ≠ -1 then
    if b.resizeType ≠ ResizeType.NULL then
      let dx := movePos.x - b.resizeMousePos.x
      let dy := movePos.y - b.resizeMousePos.y
      let i := b.selectElementIndex.toNat
      let newStack :=
        match stack[i]? with
        | some e => stack.set i (resizeDispatch e dx dy b.resizeType)
        | none => stack
      { b1 with
        isCurrentChange := true
        history := b1.history.setCurrentStack newStack
        resizeMousePos := movePos }
    else b1
  else b1

/-!
## Committed edits

For the undo/redo inverse law the board-level mutations that commit to the
timeline are abstracted as a list of History-Engine commits: `add` (new stroke
or text), `commitSnapshot` (drag/resize pointer-up), `deleteAt` and `clear`.
-/

/-- One committed edit applied to the History Engine. -/
inductive CommitOp where
  | add (e : Element)
  | commit (stack prevStack : List Element)
  | deleteAt (i : ℕ)
  | clear
deriving DecidableEq, Repr

/-- Apply one committed edit to a history. -/
def applyCommit (h : History Element) : CommitOp → History Element
  | CommitOp.add e => h.add e
  | CommitOp.commit stack prevStack => h.pushStack stack prevStack
  | CommitOp.deleteAt i => h.deleteByIndex i
  | CommitOp.clear => h.clean

/-- Apply a sequence of committed edits, left to right. -/
def runCommits (h : History Element) (ops : List CommitOp) : History Element :=
  ops.foldl applyCommit h

/-- The cursor sits on the last timeline entry (no pending redo).  Every
history produced by committed edits alone satisfies this. -/
def History.atTail (h : History α) : Prop := h.step + 1 = h.snapshots.length

/-- The per-element selectability predicate of the hover scan: the element's
layer id is truthy and among the shown layers, and the variant-specific
hit-test of `moveSelectElement` succeeds (`FREE_LINE`: the segment loop;
`TEXT`: rectangle containment; eraser strokes never match). -/
def hoverMatch (movePos : Pos) (showIds : List ℕ) (e : Element) : Bool :=
  (e.layer ≠ 0 && showIds.contains e.layer) &&
    (match e.type with
     | EleType.FREE_LINE => freeLineHitLoop movePos e.positions
     | EleType.TEXT => isInsideRect movePos e.rect
     | EleType.CLEAN_LINE => false)

/-!
## Concrete sample states

Closed instances used by the witness theorems.
-/

/-- A free-line stroke on layer 1 along the segment `(0,0)–(2,0)`. -/
def sampleStroke : Element :=
  { type := EleType.FREE_LINE, layer := 1, color := "#000000", lineWidth := 4
    positions := [⟨0, 0⟩, ⟨2, 0⟩], value := "", rect := ⟨0, 0, 2, 0⟩ }

/-- A degenerate (zero-width) free-line stroke on layer 1: a vertical segment
`(3,0)–(3,5)`, whose bounding rect has `width = 0`. -/
def flatStroke : Element :=
  { type := EleType.FREE_LINE, layer := 1, color := "#000000", lineWidth := 4
    positions := [⟨3, 0⟩, ⟨3, 5⟩], value := "", rect := ⟨3, 0, 0, 5⟩ }

/-- An eraser stroke on layer 1 along the segment `(0,0)–(2,0)`. -/
def sampleEraser : Element :=
  { type := EleType.CLEAN_LINE, layer := 1, color := "", lineWidth := 4
    positions := [⟨0, 0⟩, ⟨2, 0⟩], value := "", rect := ⟨0, 0, 2, 0⟩ }

/-- A text box on layer 1 covering `[0,10] × [0,10]`. -/
def textOnLayer1 : Element := TextElement.create 1 "top" ⟨0, 0, 10, 10⟩

/-- A text box on layer 2 covering `[0,10] × [0,10]` (same footprint as
`textOnLayer1`). -/
def textOnLayer2 : Element := TextElement.create 2 "bottom" ⟨0, 0, 10, 10⟩

/-- A two-layer registry, layer 1 first (topmost for hit-testing), both
shown. -/
def regBothShown : LayerRegistry := ⟨[⟨1, true⟩, ⟨2, true⟩], 1⟩

/-- The same registry with layer 1 hidden. -/
def regTopHidden : LayerRegistry := ⟨[⟨1, false⟩, ⟨2, true⟩], 1⟩

/-- The same registry with both layers hidden. -/
def regBothHidden : LayerRegistry := ⟨[⟨1, false⟩, ⟨2, false⟩], 1⟩

/-- A quiescent board: empty single-snapshot history, one shown layer, no
selection, no drag session. -/
def baseBoard : Board :=
  { history := History.fromStack []
    layer := ⟨[⟨1, true⟩], 1⟩
    canvasRect := ⟨0, 0⟩
    originPosition := ⟨0, 0⟩
    originTranslate := ⟨0, 0⟩
    currentLineColor := "#000000"
    currentLineWidth := 4
    cleanWidth := 4
    currentMoveEle := none
    mouseHoverElementIndex := -1
    selectElementIndex := -1
    resizeMousePos := ⟨0, 0⟩
    resizeType := ResizeType.NULL
    tempCache := none
    isCurrentChange := false }

/-- A board in the middle of a drag session over `sampleStroke` in which the
live stack still equals the pointer-down deep copy. -/
def dragBoard : Board :=
  { baseBoard with
    history := History.fromStack [sampleStroke]
    selectElementIndex := 0
    resizeType := ResizeType.BODY
    tempCache := some [sampleStroke]
    isCurrentChange := true }

/-- A board in the middle of a corner resize of the zero-width stroke
`flatStroke`. -/
def flatResizeBoard : Board :=
  { baseBoard with
    history := History.fromStack [flatStroke]
    selectElementIndex := 0
    resizeType := ResizeType.TOP_LEFT
    resizeMousePos := ⟨3, 5⟩
    tempCache := some [flatStroke]
    isCurrentChange := true }

/-- A board whose stack holds a single eraser stroke. -/
def eraserBoard : Board :=
  { baseBoard with history := History.fromStack [sampleEraser] }

/-- A board whose stack holds two overlapping text boxes on layers 2 and 1
(paint order bottom to top, as `sortOnLayer` leaves it). -/
def twoLayerBoard : Board :=
  { baseBoard with
    history := History.fromStack [textOnLayer2, textOnLayer1]
    layer := regBothShown }

/-- `twoLayerBoard` with unsorted stack: the element on layer 1 (registry
index 0) sits before the element on layer 2 (registry index 1). -/
def unsortedBoard : Board :=
  { baseBoard with
    history := History.fromStack [textOnLayer1, textOnLayer2]
    layer := regBothShown }

/-!
## Helper lemmas
-/

theorem History.length_take_step {α : Type} (h : History α) (hwf : h.WF) :
    (h.snapshots.take (h.step + 1)).length = h.step + 1 := by
  rw [List.length_take]
  exact Nat.min_eq_left (by exact hwf)

theorem History.getCurrentStack_add {α : Type} (h : History α) (e : α)
    (hwf : h.WF) : (h.add e).getCurrentStack = h.getCurrentStack ++ [e] := by
  unfold add getCurrentStack
  rw [List.getD_eq_getElem?_getD,
    List.getElem?_append_right (by rw [h.length_take_step hwf])]
  rw [h.length_take_step hwf]
  simp [History.getCurrentStack]

theorem History.WF_undo {α : Type} (h : History α) (hwf : h.WF) :
    h.undo.WF := by
  unfold undo WF at *
  split
  · exact Nat.lt_of_le_of_lt (Nat.sub_le _ _) hwf
  · exact hwf

theorem History.redo_add {α : Type} (h : History α) (e : α) (hwf : h.WF) :
    (h.add e).redo = h.add e := by
  unfold redo add
  rw [List.length_append, h.length_take_step hwf]
  simp

/-- C1: for every resize/move drag session, if the element stack at pointer-up
is structurally equal to the deep copy taken at pointer-down (in particular,
when there is zero net pointer movement during the session), then
`canvasMouseUp` pushes no new History timeline entry, leaving the undo
timeline unchanged. -/
theorem canvasMouseUp_noop_drag (b : Board) (tc : List Element)
    (hcache : b.tempCache = some tc)
    (heq : tc = b.history.getCurrentStack) :
    (b.canvasMouseUp).history = b.history := by
  unfold Board.canvasMouseUp Board.initOriginPosition
  rw [hcache]
  cases b.isCurrentChange <;> simp [History.pushStack, heq]

/-- Witness for C1: on `dragBoard` (live stack still equal to the pointer-down
deep copy) `canvasMouseUp` leaves the timeline unchanged. -/
theorem canvasMouseUp_noop_drag_witness :
    (dragBoard.canvasMouseUp).history = dragBoard.history :=
  canvasMouseUp_noop_drag dragBoard [sampleStroke] rfl rfl

/-- C2: for every history state, after `undo()` is called and a new element is
added via `add()` (as done by `recordCurrent` or `addTextElement`), a
subsequent `redo()` is a no-op: the future entries beyond the cursor were
discarded by the `add`, and the state (in particular the stack) after `redo()`
equals the state before it. -/
theorem redo_noop_after_undo_then_add {α : Type} (h : History α) (e : α)
    (hwf : h.WF) :
    ((h.undo).add e).redo = (h.undo).add e :=
  History.redo_add h.undo e (h.WF_undo hwf)

/-- Witness for C2: concrete instance on a fresh single-snapshot history. -/
theorem redo_noop_after_undo_then_add_witness :
    ((History.fromStack ([] : List Element)).undo.add sampleStroke).redo =
      (History.fromStack ([] : List Element)).undo.add sampleStroke :=
  redo_noop_after_undo_then_add _ _ (by decide)

/-- C10: every call to `undo()`, `redo()`, `clean()`, `deleteSelectElement()`
or `recordCurrent()` leaves the board with no element selected
(`selectElementIndex = -1`), so a selection never survives an undo/redo, a
clear, a delete, or the start of a new stroke. -/
theorem history_ops_clear_selection (b : Board) (type : String) :
    (b.undo).selectElementIndex = -1 ∧
    (b.redo).selectElementIndex = -1 ∧
    (b.clean).selectElementIndex = -1 ∧
    (b.deleteSelectElement).selectElementIndex = -1 ∧
    (b.recordCurrent type).selectElementIndex = -1 := by
  refine ⟨rfl, rfl, rfl, ?_, ?_⟩
  · unfold Board.deleteSelectElement
    split
    · rfl
    · next hsel => simpa using hsel
  · unfold Board.recordCurrent
    by_cases h1 : type = CANVAS_ELE_TYPE.FREE_LINE
    · simp [h1, Board.sortOnLayer, Board.cancelSelectElement]
    · by_cases h2 : type = CANVAS_ELE_TYPE.CLEAN_LINE
      · simp [h1, h2, Board.sortOnLayer, Board.cancelSelectElement,
          CANVAS_ELE_TYPE.FREE_LINE, CANVAS_ELE_TYPE.CLEAN_LINE]
      · simp [h1, h2, Board.cancelSelectElement]

/-- C8: `addTextElement(value, rect)` with an empty value is a no-op (the
board state is unchanged); with a non-empty value it converts the rect's
position to board coordinates (subtracting the canvas origin and the pan
offset) and appends exactly one TextBox on the current layer to the live
stack. -/
theorem addTextElement_spec (b : Board) (value : String) (rect : Rect)
    (hwf : b.history.WF) :
    (value = "" → b.addTextElement value rect = b) ∧
    (value ≠ "" →
      (b.addTextElement value rect).history.getCurrentStack =
        b.history.getCurrentStack ++
          [TextElement.create b.layer.current value
            { rect with
              x := rect.x - b.canvasRect.left - b.originTranslate.x
              y := rect.y - b.canvasRect.top - b.originTranslate.y }]) := by
  constructor
  · intro hv
    unfold Board.addTextElement
    simp [hv]
  · intro hv
    unfold Board.addTextElement Board.transformPosition
    simp [hv, History.getCurrentStack_add _ _ hwf]

/-- Witness for C8: on `baseBoard` the empty value is a no-op, and the value
`"hi"` with rect `⟨1,2,3,4⟩` adds exactly the corresponding TextBox on the
current layer. -/
theorem addTextElement_spec_witness :
    baseBoard.addTextElement "" ⟨1, 2, 3, 4⟩ = baseBoard ∧
    (baseBoard.addTextElement "hi" ⟨1, 2, 3, 4⟩).history.getCurrentStack =
      [TextElement.create 1 "hi" ⟨1, 2, 3, 4⟩] := by
  constructor
  · exact (addTextElement_spec baseBoard "" ⟨1, 2, 3, 4⟩ (by decide)).1 rfl
  · have h := (addTextElement_spec baseBoard "hi" ⟨1, 2, 3, 4⟩ (by decide)).2
      (by decide)
    rw [h]
    norm_num [baseBoard, History.fromStack, History.getCurrentStack]

theorem History.atTail_applyCommit (h : History Element) (op : CommitOp)
    (ht : h.atTail) : (applyCommit h op).atTail := by
  have hwf : h.WF := by unfold History.WF; unfold History.atTail at ht; omega
  have hlen := h.length_take_step hwf
  cases op with
  | add e =>
      show (h.add e).atTail
      unfold History.add History.atTail
      simp [hlen]
  | commit stack prevStack =>
      show (h.pushStack stack prevStack).atTail
      unfold History.pushStack
      split
      · exact ht
      · unfold History.atTail
        simp [hlen]
  | deleteAt i =>
      show (h.deleteByIndex i).atTail
      unfold History.deleteByIndex History.atTail
      simp [hlen]
  | clear =>
      show h.clean.atTail
      unfold History.clean History.atTail
      simp [hlen]

theorem History.undo_redo_of_atTail {α : Type} (h : History α)
    (ht : h.atTail) : h.undo.redo = h := by
  obtain ⟨snaps, step⟩ := h
  unfold History.atTail at ht
  unfold History.undo History.redo
  dsimp only at ht ⊢
  by_cases h0 : 0 < step
  · rw [if_pos h0]
    dsimp only
    have h1 : step - 1 + 1 = step := by omega
    rw [h1, if_pos (by omega)]
  · rw [if_neg h0]
    dsimp only
    rw [if_neg (by omega)]

theorem History.undoRedo_iterate_of_atTail {α : Type} (h : History α)
    (ht : h.atTail) (N : ℕ) :
    (fun s => History.redo (History.undo s))^[N] h = h := by
  induction N with
  | zero => rfl
  | succ n ih =>
      rw [Function.iterate_succ_apply]
      simp only [History.undo_redo_of_atTail h ht]
      exact ih

theorem atTail_runCommits (init : List Element) (ops : List CommitOp) :
    (runCommits (History.fromStack init) ops).atTail := by
  suffices H : ∀ h : History Element, h.atTail → (runCommits h ops).atTail by
    refine H _ ?_
    unfold History.fromStack History.atTail
    rfl
  induction ops with
  | nil => intro h ht; exact ht
  | cons op rest ih =>
      intro h ht
      exact ih _ (History.atTail_applyCommit h op ht)

/-- C3: for every sequence of committed edits and every N, calling `undo()`
then `redo()` restores the exact history state (in particular the stack, by
deep equality); the undo/redo pair repeated N times still yields that same
state; and at either timeline boundary `undo()` / `redo()` are no-ops, not
errors. -/
theorem undo_redo_inverse_law (init : List Element) (ops : List CommitOp)
    (N : ℕ) :
    ((runCommits (History.fromStack init) ops).undo.redo =
        runCommits (History.fromStack init) ops) ∧
    ((fun s => History.redo (History.undo s))^[N]
        (runCommits (History.fromStack init) ops) =
      runCommits (History.fromStack init) ops) ∧
    ((runCommits (History.fromStack init) ops).redo =
      runCommits (History.fromStack init) ops) ∧
    ((runCommits (History.fromStack init) ops).step = 0 →
      (runCommits (History.fromStack init) ops).undo =
        runCommits (History.fromStack init) ops) := by
  have ht := atTail_runCommits init ops
  refine ⟨History.undo_redo_of_atTail _ ht,
    History.undoRedo_iterate_of_atTail _ ht N, ?_, ?_⟩
  · unfold History.redo
    unfold History.atTail at ht
    rw [if_neg (by omega)]
  · intro h0
    unfold History.undo
    rw [if_neg (by omega)]

/-- Witness for C3: concrete instance; the boundary-undo hypothesis is
discharged on the empty edit sequence, whose cursor is `0`. -/
theorem undo_redo_inverse_law_witness :
    ((runCommits (History.fromStack [sampleStroke]) []).undo.redo =
      runCommits (History.fromStack [sampleStroke]) []) ∧
    ((runCommits (History.fromStack [sampleStroke]) []).undo =
      runCommits (History.fromStack [sampleStroke]) []) := by
  obtain ⟨h1, _, _, h4⟩ := undo_redo_inverse_law [sampleStroke] [] 3
  exact ⟨h1, h4 rfl⟩

theorem freeLineHitLoop_eq_true_iff (p : Pos) :
    ∀ ps : List Pos, (freeLineHitLoop p ps = true ↔
      ∃ (i : ℕ) (a b : Pos), ps[i]? = some a ∧ ps[i + 1]? = some b ∧
        (distSq p a < 100 ∨ distSq p b < 100) ∧ distToSegSq p a b < 100)
  | [] => by simp [freeLineHitLoop]
  | [x] => by
      constructor
      · intro h
        simp [freeLineHitLoop] at h
      · rintro ⟨i, a, b, h1, h2, -⟩
        simp at h2
  | p0 :: p1 :: rest => by
      simp only [freeLineHitLoop, Bool.or_eq_true, Bool.and_eq_true,
        decide_eq_true_eq]
      rw [freeLineHitLoop_eq_true_iff p (p1 :: rest)]
      constructor
      · rintro (⟨hd, hseg⟩ | ⟨i, a, b, h1, h2, hcond, hseg⟩)
        · exact ⟨0, p0, p1, by simp, by simp, hd, hseg⟩
        · exact ⟨i + 1, a, b, by simpa using h1, by simpa using h2, hcond,
            hseg⟩
      · rintro ⟨i, a, b, h1, h2, hcond, hseg⟩
        cases i with
        | zero =>
            left
            simp only [List.getElem?_cons_zero, Option.some.injEq] at h1
            simp only [List.getElem?_cons_succ, List.getElem?_cons_zero,
              Option.some.injEq] at h2
            subst h1
            subst h2
            exact ⟨hcond, hseg⟩
        | succ j =>
            right
            exact ⟨j, a, b, by simpa using h1, by simpa using h2, hcond, hseg⟩

/-- C5: the free-stroke hit-test succeeds at a pointer position iff, for some
consecutive pair of stroke points, the point-to-segment distance is below the
threshold 10 and the distance to at least one of that segment's two endpoints
is also below 10 (all compared as squares against 100); in particular a point
exactly 9 units from the segment `(0,0)–(2,0)` (squared distance 81) registers
a hit while a point 11 units away (squared distance 121) does not. -/
theorem stroke_hit_threshold :
    (∀ (p : Pos) (ps : List Pos), freeLineHitLoop p ps = true ↔
      ∃ (i : ℕ) (a b : Pos), ps[i]? = some a ∧ ps[i + 1]? = some b ∧
        (distSq p a < 100 ∨ distSq p b < 100) ∧ distToSegSq p a b < 100) ∧
    freeLineHitLoop ⟨1, 9⟩ [⟨0, 0⟩, ⟨2, 0⟩] = true ∧
    distToSegSq ⟨1, 9⟩ ⟨0, 0⟩ ⟨2, 0⟩ = 81 ∧
    freeLineHitLoop ⟨1, 11⟩ [⟨0, 0⟩, ⟨2, 0⟩] = false ∧
    distToSegSq ⟨1, 11⟩ ⟨0, 0⟩ ⟨2, 0⟩ = 121 := by
  refine ⟨fun p ps => freeLineHitLoop_eq_true_iff p ps, ?_, ?_, ?_, ?_⟩ <;>
    norm_num [freeLineHitLoop, distSq, distToSegSq]

theorem scanStep_done_foldl (movePos : Pos) (ids : List ℕ) (i : ℤ) :
    ∀ l : List (ℕ × Element),
      l.foldl (scanStep movePos ids) (i, true) = (i, true)
  | [] => rfl
  | x :: xs => by
      rw [List.foldl_cons]
      have hx : scanStep movePos ids (i, true) x = (i, true) := by
        simp [scanStep]
      rw [hx]
      exact scanStep_done_foldl movePos ids i xs

theorem scanStep_false (movePos : Pos) (ids : List ℕ) (prev : ℤ)
    (x : ℕ × Element) :
    scanStep movePos ids (prev, false) x =
      if hoverMatch movePos ids x.2 then ((x.1 : ℤ), true)
      else (prev, false) := by
  unfold scanStep hoverMatch
  by_cases hv : (decide (x.2.layer ≠ 0) && ids.contains x.2.layer) = true
  · rw [if_pos hv]
    simp only [hv, Bool.true_and]
    cases x.2.type <;> simp
  · rw [if_neg hv]
    have hv' : (decide (x.2.layer ≠ 0) && ids.contains x.2.layer) = false := by
      simpa using hv
    simp only [hv', Bool.false_and]
    simp

theorem scan_foldl_eq (movePos : Pos) (ids : List ℕ) :
    ∀ (l : List (ℕ × Element)) (prev : ℤ),
      l.foldl (scanStep movePos ids) (prev, false) =
        (match l.find? (fun ie => hoverMatch movePos ids ie.2) with
         | some ie => ((ie.1 : ℤ), true)
         | none => (prev, false))
  | [], _ => rfl
  | x :: xs, prev => by
      rw [List.foldl_cons, scanStep_false]
      by_cases hm : hoverMatch movePos ids x.2 = true
      · rw [if_pos hm, scanStep_done_foldl,
          @List.find?_cons_of_pos _ (fun ie => hoverMatch movePos ids ie.2)
            x xs hm]
      · rw [if_neg hm, scan_foldl_eq movePos ids xs prev,
          @List.find?_cons_of_neg _ (fun ie => hoverMatch movePos ids ie.2)
            x xs hm]

theorem hoverScan_eq_find (movePos : Pos) (ids : List ℕ)
    (stack : List Element) (prev : ℤ) :
    hoverScan movePos ids stack prev =
      (match (stack.enum.reverse).find?
          (fun ie => hoverMatch movePos ids ie.2) with
       | some ie => (ie.1 : ℤ)
       | none => -1) := by
  unfold hoverScan
  rw [scan_foldl_eq]
  cases hfind : (stack.enum.reverse).find?
      (fun ie => hoverMatch movePos ids ie.2) <;>
    simp [hfind]

theorem moveSelectElement_hover_eq (b : Board) (pos : Pos)
    (hne : b.history.getCurrentStack ≠ []) :
    (b.moveSelectElement pos).mouseHoverElementIndex =
      (match ((b.history.getCurrentStack).enum.reverse).find?
          (fun ie => hoverMatch (b.transformPosition pos)
            (showLayerIds b.layer) ie.2) with
       | some ie => (ie.1 : ℤ)
       | none => -1) := by
  have hlen : b.history.getCurrentStack.length ≠ 0 := by
    simpa using hne
  simp only [Board.moveSelectElement]
  rw [if_pos hlen]
  split
  · split
    · simp [hoverScan_eq_find]
    · simp [hoverScan_eq_find]
  · simp [hoverScan_eq_find]

/-- C4: the hover/selection scan visits candidates in topmost-first (reverse
paint) order, skips every element whose layer is hidden or missing from the
layer stack, and stops at the first matching element — the hover index equals
the first match of the reversed, index-annotated stack under the visible-hit
predicate, or `-1`.  Hence on two overlapping text boxes on different layers
the pointer resolves to the element on the topmost visible layer (index 1 of
`twoLayerBoard`); hiding that layer makes it resolve to the next-topmost
visible element (index 0), and hiding both layers to none (`-1`). -/
theorem hover_scan_topmost_first :
    (∀ (b : Board) (pos : Pos), b.history.getCurrentStack ≠ [] →
      (b.moveSelectElement pos).mouseHoverElementIndex =
        (match ((b.history.getCurrentStack).enum.reverse).find?
            (fun ie => hoverMatch (b.transformPosition pos)
              (showLayerIds b.layer) ie.2) with
         | some ie => (ie.1 : ℤ)
         | none => -1)) ∧
    (twoLayerBoard.moveSelectElement ⟨5, 5⟩).mouseHoverElementIndex = 1 ∧
    (({ twoLayerBoard with layer := regTopHidden } : Board).moveSelectElement
        ⟨5, 5⟩).mouseHoverElementIndex = 0 ∧
    (({ twoLayerBoard with layer := regBothHidden } : Board).moveSelectElement
        ⟨5, 5⟩).mouseHoverElementIndex = -1 := by
  refine ⟨fun b pos hne => moveSelectElement_hover_eq b pos hne, ?_, ?_, ?_⟩ <;>
    norm_num [Board.moveSelectElement, Board.transformPosition, hoverScan,
      scanStep, twoLayerBoard, baseBoard, regBothShown, regTopHidden,
      regBothHidden, textOnLayer1, textOnLayer2, TextElement.create,
      History.fromStack, History.getCurrentStack, showLayerIds, List.enum,
      List.enumFrom, isInsideRect, freeLineHitLoop]

/-- Witness for C4: the general characterization applied to the concrete
`twoLayerBoard`, discharging the non-empty-stack hypothesis there. -/
theorem hover_scan_topmost_first_witness :
    (twoLayerBoard.moveSelectElement ⟨5, 5⟩).mouseHoverElementIndex =
      (match ((twoLayerBoard.history.getCurrentStack).enum.reverse).find?
          (fun ie => hoverMatch (twoLayerBoard.transformPosition ⟨5, 5⟩)
            (showLayerIds twoLayerBoard.layer) ie.2) with
       | some ie => (ie.1 : ℤ)
       | none => -1) :=
  hover_scan_topmost_first.1 twoLayerBoard ⟨5, 5⟩ (by decide)

/-- C9: eraser strokes are never selectable — for every element of type
`CLEAN_LINE` in the current stack and every pointer position, the hover scan
of `moveSelectElement` never sets the hover index to that element's index:
only `FREE_LINE` and `TEXT` elements participate in the hit-test. -/
theorem eraser_never_hovered (b : Board) (pos : Pos) (i : ℕ) (e : Element)
    (hi : (b.history.getCurrentStack)[i]? = some e)
    (ht : e.type = EleType.CLEAN_LINE) :
    (b.moveSelectElement pos).mouseHoverElementIndex ≠ (i : ℤ) := by
  have hne : b.history.getCurrentStack ≠ [] := by
    intro hnil
    rw [hnil] at hi
    simp at hi
  rw [moveSelectElement_hover_eq b pos hne]
  cases hfind : ((b.history.getCurrentStack).enum.reverse).find?
      (fun ie => hoverMatch (b.transformPosition pos)
        (showLayerIds b.layer) ie.2) with
  | none => simp
  | some ie =>
      simp only []
      intro heq
      have hii : ie.1 = i := by exact_mod_cast heq
      have hp : hoverMatch (b.transformPosition pos)
          (showLayerIds b.layer) ie.2 = true := by
        have := @List.find?_some _
          (fun ie => hoverMatch (b.transformPosition pos)
            (showLayerIds b.layer) ie.2) ie _ hfind
        simpa using this
      have hmem : ie ∈ (b.history.getCurrentStack).enum := by
        have := @List.mem_of_find?_eq_some _
          (fun ie => hoverMatch (b.transformPosition pos)
            (showLayerIds b.layer) ie.2) ie _ hfind
        simpa using this
      have hget : (b.history.getCurrentStack)[ie.1]? = some ie.2 := by
        have : (ie.1, ie.2) ∈ (b.history.getCurrentStack).enum := by
          simpa using hmem
        exact List.mem_enum_iff_getElem?.mp this
      rw [hii, hi] at hget
      have he : ie.2 = e := by
        simpa using hget.symm
      rw [he] at hp
      unfold hoverMatch at hp
      rw [ht] at hp
      simp at hp

/-- Witness for C9: on a board whose stack is a single eraser stroke, the
pointer at its very first point still does not hover it. -/
theorem eraser_never_hovered_witness :
    (eraserBoard.moveSelectElement ⟨0, 0⟩).mouseHoverElementIndex ≠
      ((0 : ℕ) : ℤ) :=
  eraser_never_hovered eraserBoard ⟨0, 0⟩ 0 sampleEraser (by decide) rfl

theorem History.getCurrentStack_setCurrentStack {α : Type} (h : History α)
    (s : List α) (hwf : h.WF) : (h.setCurrentStack s).getCurrentStack = s := by
  unfold setCurrentStack getCurrentStack
  rw [List.getD_eq_getElem?_getD, List.getElem?_set_self (by simpa using hwf)]
  rfl

theorem resizeFreeLine_zero_axis (e : Element) (sX sY : ℚ)
    (rt : ResizeType) :
    (e.rect.width = 0 →
      (resizeFreeLine e sX sY e.rect rt).positions.map Pos.x =
        e.positions.map Pos.x ∧
      (resizeFreeLine e sX sY e.rect rt).rect.x = e.rect.x ∧
      (resizeFreeLine e sX sY e.rect rt).rect.width = e.rect.width) ∧
    (e.rect.height = 0 →
      (resizeFreeLine e sX sY e.rect rt).positions.map Pos.y =
        e.positions.map Pos.y ∧
      (resizeFreeLine e sX sY e.rect rt).rect.y = e.rect.y ∧
      (resizeFreeLine e sX sY e.rect rt).rect.height = e.rect.height) := by
  constructor <;> intro h0 <;>
    simp [resizeFreeLine, h0, List.map_map, Function.comp]

/-- C7: during a corner-handle resize of a free stroke whose original
bounding-rect width (respectively height) is zero, the resize skips that axis
for the frame instead of dividing by zero: the element's x-geometry
(respectively y-geometry) — every stroke point coordinate, the rect origin and
the rect dimension on that axis — is unchanged by `moveSelectElement`. -/
theorem zero_dim_resize_skips_axis (b : Board) (pos : Pos) (i : ℕ)
    (e : Element)
    (hwf : b.history.WF)
    (hsel : b.selectElementIndex = (i : ℤ))
    (hi : (b.history.getCurrentStack)[i]? = some e)
    (hty : e.type = EleType.FREE_LINE)
    (hcorner : b.resizeType = ResizeType.TOP_LEFT ∨
      b.resizeType = ResizeType.TOP_RIGHT ∨
      b.resizeType = ResizeType.BOTTOM_LEFT ∨
      b.resizeType = ResizeType.BOTTOM_RIGHT) :
    ∃ e', ((b.moveSelectElement pos).history.getCurrentStack)[i]? = some e' ∧
      (e.rect.width = 0 →
        e'.positions.map Pos.x = e.positions.map Pos.x ∧
        e'.rect.x = e.rect.x ∧ e'.rect.width = e.rect.width) ∧
      (e.rect.height = 0 →
        e'.positions.map Pos.y = e.positions.map Pos.y ∧
        e'.rect.y = e.rect.y ∧ e'.rect.height = e.rect.height) := by
  have hlt : i < (b.history.getCurrentStack).length := by
    rw [List.getElem?_eq_some] at hi
    exact hi.1
  have hne : b.selectElementIndex ≠ -1 := by
    rw [hsel]
    omega
  have hrtne : b.resizeType ≠ ResizeType.NULL := by
    rcases hcorner with h | h | h | h <;> rw [h] <;> simp
  refine ⟨resizeDispatch e ((b.transformPosition pos).x - b.resizeMousePos.x)
    ((b.transformPosition pos).y - b.resizeMousePos.y) b.resizeType, ?_, ?_, ?_⟩
  · simp only [Board.moveSelectElement]
    rw [if_pos hne, if_pos hrtne]
    have htoNat : b.selectElementIndex.toNat = i := by
      rw [hsel]
      exact Int.toNat_natCast i
    split
    · simp only [htoNat, hi]
      rw [History.getCurrentStack_setCurrentStack _ _ hwf]
      exact List.getElem?_set_self hlt
    · simp only [htoNat, hi]
      rw [History.getCurrentStack_setCurrentStack _ _ hwf]
      exact List.getElem?_set_self hlt
  · intro hw
    unfold resizeDispatch
    rw [if_pos hty]
    rcases hcorner with h | h | h | h <;> rw [h] <;>
      exact (resizeFreeLine_zero_axis e _ _ _).1 hw
  · intro hh
    unfold resizeDispatch
    rw [if_pos hty]
    rcases hcorner with h | h | h | h <;> rw [h] <;>
      exact (resizeFreeLine_zero_axis e _ _ _).2 hh

/-- Witness for C7: on `flatResizeBoard` (zero-width stroke, TopLeft corner
drag) the resize step leaves the x-geometry of the stroke unchanged. -/
theorem zero_dim_resize_skips_axis_witness :
    ∃ e', ((flatResizeBoard.moveSelectElement ⟨4, 6⟩).history.getCurrentStack)[0]?
        = some e' ∧
      (flatStroke.rect.width = 0 →
        e'.positions.map Pos.x = flatStroke.positions.map Pos.x ∧
        e'.rect.x = flatStroke.rect.x ∧
        e'.rect.width = flatStroke.rect.width) ∧
      (flatStroke.rect.height = 0 →
        e'.positions.map Pos.y = flatStroke.positions.map Pos.y ∧
        e'.rect.y = flatStroke.rect.y ∧
        e'.rect.height = flatStroke.rect.height) :=
  zero_dim_resize_skips_axis flatResizeBoard ⟨4, 6⟩ 0 flatStroke (by decide)
    rfl (by decide) rfl (Or.inl rfl)

theorem History.getCurrentStack_sort {α : Type} (h : History α)
    (r : α → α → Prop) [DecidableRel r] :
    (h.sort r).getCurrentStack = h.getCurrentStack.insertionSort r := by
  unfold sort setCurrentStack getCurrentStack
  by_cases hwf : h.step < h.snapshots.length
  · rw [List.getD_eq_getElem?_getD, List.getElem?_set_self (by simpa using hwf)]
    rfl
  · rw [List.set_eq_of_length_le (by omega)]
    have hnone : h.snapshots.getD h.step ([] : List α) = [] := by
      rw [List.getD_eq_getElem?_getD, List.getElem?_eq_none (by omega)]
      rfl
    rw [hnone]
    simp [hnone]

/-- Counterexample to C6 as stated: on `unsortedBoard` (registry `[1, 2]`,
stack `[textOnLayer1, textOnLayer2]` with layer registry indices `0` and `1`)
`sortOnLayer` produces `[textOnLayer2, textOnLayer1]` — the element whose
layer appears *earlier* in the registry stack ends up *after* the one whose
layer appears later, so the stack is not in ascending layer-stack order. -/
theorem sortOnLayer_not_ascending :
    (unsortedBoard.sortOnLayer).history.getCurrentStack =
      [textOnLayer2, textOnLayer1] ∧
    findLayerIndex unsortedBoard.layer textOnLayer1.layer <
      findLayerIndex unsortedBoard.layer textOnLayer2.layer ∧
    ¬ ((unsortedBoard.sortOnLayer).history.getCurrentStack).Sorted
        (fun a c => findLayerIndex unsortedBoard.layer a.layer ≤
          findLayerIndex unsortedBoard.layer c.layer) := by
  refine ⟨by decide, by decide, ?_⟩
  intro hs
  have h12 : findLayerIndex unsortedBoard.layer textOnLayer2.layer ≤
      findLayerIndex unsortedBoard.layer textOnLayer1.layer := by
    have hstack : (unsortedBoard.sortOnLayer).history.getCurrentStack =
        [textOnLayer2, textOnLayer1] := by decide
    rw [hstack] at hs
    exact List.rel_of_sorted_cons hs _ (by simp)
  have : findLayerIndex unsortedBoard.layer textOnLayer1.layer <
      findLayerIndex unsortedBoard.layer textOnLayer2.layer := by decide
  omega

/-- C6 amended: after `sortOnLayer` the current stack is ordered by
*descending* layer-registry index (the comparator is
`indexOf(b.layer) - indexOf(a.layer)`): an element whose layer appears later
in the Layer Registry stack (or is missing, index `-1` sorting last…first)
comes before one whose layer appears earlier, i.e. it is painted below it.
The sort only permutes the current snapshot — iteration/paint order — leaving
the timeline cursor and length (undo semantics) unchanged. -/
theorem sortOnLayer_descending (b : Board) :
    ((b.sortOnLayer).history.getCurrentStack).Sorted
      (fun a c => findLayerIndex b.layer c.layer -
        findLayerIndex b.layer a.layer ≤ 0) ∧
    ((b.sortOnLayer).history.getCurrentStack).Perm
      (b.history.getCurrentStack) ∧
    (b.sortOnLayer).history.step = b.history.step ∧
    (b.sortOnLayer).history.snapshots.length =
      b.history.snapshots.length := by
  haveI hTot : IsTotal Element (fun a c => findLayerIndex b.layer c.layer -
      findLayerIndex b.layer a.layer ≤ 0) := ⟨fun a c => by omega⟩
  haveI hTr : IsTrans Element (fun a c => findLayerIndex b.layer c.layer -
      findLayerIndex b.layer a.layer ≤ 0) := ⟨fun a c d h1 h2 => by omega⟩
  refine ⟨?_, ?_, ?_, ?_⟩
  · show ((b.sortOnLayer).history.getCurrentStack).Sorted _
    have := History.getCurrentStack_sort b.history
      (fun a c => findLayerIndex b.layer c.layer -
        findLayerIndex b.layer a.layer ≤ 0)
    rw [show (b.sortOnLayer).history = b.history.sort
        (fun a c => findLayerIndex b.layer c.layer -
          findLayerIndex b.layer a.layer ≤ 0) from rfl, this]
    exact List.sorted_insertionSort _ _
  · rw [show (b.sortOnLayer).history = b.history.sort
        (fun a c => findLayerIndex b.layer c.layer -
          findLayerIndex b.layer a.layer ≤ 0) from rfl,
      History.getCurrentStack_sort]
    exact List.perm_insertionSort _ _
  · rfl
  · simp [Board.sortOnLayer, History.sort, History.setCurrentStack]
